import Mathlib

/-!
Verification of the green-trap preprocessing pipeline
(src/green_trap_analysis/src/preprocessor.py and config.py).

The panel is modelled shallowly: a cell holds `Option ℚ` (absent = pandas
NaN), a country Series is a `List (Option ℚ)` ordered by year, and the
pandas group-wise operations (`ffill(limit=3)`, `interpolate(method='linear',
limit=2, limit_area='inside')`, `bfill(limit=1)`, `shift`, `diff`, rolling
windows) are translated as per-Series functions applied country by country.
-/

namespace GreenTrap

/-- A cell of the panel: a numeric value, or an absent observation (NaN). -/
abbrev Val := Option ℚ

/-! ### Configuration lists (src/config.py) -/

/-- config.py: TURKEY_PEERS_EMERGING. -/
def TURKEY_PEERS_EMERGING : List String := ["TUR", "POL", "MEX", "ZAF", "THA"]

/-- config.py: FAST_GROWING. -/
def FAST_GROWING : List String := ["CHN", "IND", "VNM", "BGD", "PHL"]

/-- config.py: GREEN_LEADERS. -/
def GREEN_LEADERS : List String := ["DEU", "DNK", "SWE", "NLD", "NOR"]

/-- config.py: ENERGY_DEPENDENT. -/
def ENERGY_DEPENDENT : List String := ["RUS", "SAU", "NOR", "CAN", "AUS"]

/-- config.py: SOUTHERN_EUROPE. -/
def SOUTHERN_EUROPE : List String := ["ITA", "ESP", "GRC", "PRT"]

/-- config.py: ASIAN_EMERGING. -/
def ASIAN_EMERGING : List String := ["IDN", "MYS", "THA", "PHL", "VNM"]

/-- config.py: OTHER_COUNTRIES. -/
def OTHER_COUNTRIES : List String := ["USA", "JPN", "GBR", "FRA", "BRA", "KOR", "CHL", "NZL"]

/-- config.py: ALL_COUNTRIES = sorted(list(set(concatenation of the lists))).
`dedup` plays the role of `set`; the `sorted` of the source only permutes the
list alphabetically, which no property below depends on, so it is omitted
here (membership and per-country lookups are order-independent). -/
def ALL_COUNTRIES : List String :=
  (TURKEY_PEERS_EMERGING ++ FAST_GROWING ++ GREEN_LEADERS ++ ENERGY_DEPENDENT ++
    SOUTHERN_EUROPE ++ ASIAN_EMERGING ++ OTHER_COUNTRIES).dedup

/-- config.py: NO_INTERPOLATE, the volatile / crisis-sensitive variables. -/
def NO_INTERPOLATE : List String :=
  ["Inflation_CPI_Pct", "GDP_Growth_Pct", "Broad_Money_Growth_Pct",
   "GHG_Emissions_Growth_Pct", "GDP_Deflator_Growth_Pct", "Real_Interest_Rate_Pct"]

/-- config.py: FORWARD_FILL_OK, the structural / slow-moving variables. -/
def FORWARD_FILL_OK : List String :=
  ["Renewable_Energy_Consumption_Pct", "Fossil_Fuel_Consumption_Pct",
   "Energy_Intensity_Primary_MJ_Per_GDP", "Population_Total",
   "Manufacturing_Value_Added_Pct_GDP"]

/-- config.py: GREEN_VARS, the core green-transition indicators. -/
def GREEN_VARS : List String :=
  ["Renewable_Energy_Consumption_Pct", "Renewable_Electricity_Output_Pct",
   "Renewable_Electricity_NoHydro_Pct", "Fossil_Fuel_Consumption_Pct",
   "Alternative_Nuclear_Energy_Pct"]

/-- config.py lines 42-60: the country-to-analytical-group assignment.  The
Python loop fills the COUNTRY_GROUPS dict with an if/elif chain, so each
country receives the label of the first list (in this fixed order) that
contains it, with Other_Advanced as the fallback. -/
def countryGroup (c : String) : String :=
  if c = "TUR" then "Turkey_Focus"
  else if c ∈ GREEN_LEADERS then "Green_Leaders"
  else if c ∈ FAST_GROWING then "Fast_Growing"
  else if c ∈ ENERGY_DEPENDENT then "Energy_Dependent"
  else if c ∈ TURKEY_PEERS_EMERGING then "Turkey_Peers"
  else if c ∈ SOUTHERN_EUROPE then "Southern_Europe"
  else if c ∈ ASIAN_EMERGING then "Asian_Emerging"
  else "Other_Advanced"

/-- config.py: the COUNTRY_GROUPS dict, one entry per country of ALL_COUNTRIES. -/
def COUNTRY_GROUPS : List (String × String) :=
  ALL_COUNTRIES.map (fun c => (c, countryGroup c))

/-! ### Per-Series operations (pandas semantics)

All operations act on one country Series, a `List Val` ordered by year;
`smart_imputation` and `create_derived_features` apply them per country via
`df.groupby('Country_Code')`. -/

/-- Worker for pandas `Series.ffill(limit=n)`.  State: the last valid value
seen (`last`) and the number of consecutive NaNs since it (`gap`).  A NaN is
filled from `last` only while the run length stays within the limit; pandas
fills the first `n` NaNs of a longer run and leaves the rest missing. -/
def ffillGo (n : ℕ) : Val → ℕ → List Val → List Val
  | _, _, [] => []
  | _, _, some v :: rest => some v :: ffillGo n (some v) 0 rest
  | last, gap, none :: rest =>
      (if gap + 1 ≤ n then last else none) :: ffillGo n last (gap + 1) rest

/-- pandas `Series.ffill(limit=n)` (preprocessor.py line 54 uses n = 3). -/
def ffillLimit (n : ℕ) (s : List Val) : List Val := ffillGo n none 0 s

/-- Index and value of the last valid observation strictly before position
`i`, if any. -/
def prevValid (s : List Val) : ℕ → Option (ℕ × ℚ)
  | 0 => none
  | i + 1 =>
      match s.getD i none with
      | some v => some (i, v)
      | none => prevValid s i

/-- Fuelled forward search for the first valid observation at position `m`
or later. -/
def nextValidGo (s : List Val) : ℕ → ℕ → Option (ℕ × ℚ)
  | _, 0 => none
  | m, fuel + 1 =>
      match s.getD m none with
      | some v => some (m, v)
      | none => nextValidGo s (m + 1) fuel

/-- Index and value of the first valid observation strictly after position
`i`, if any. -/
def nextValid (s : List Val) (i : ℕ) : Option (ℕ × ℚ) :=
  nextValidGo s (i + 1) (s.length - (i + 1))

/-- pandas `Series.interpolate(method='linear', limit, limit_area='inside')`
(preprocessor.py line 75, limit = 2).  A missing position is filled iff it
has valid observations on both sides (limit_area='inside') and lies within
`limit` positions after the previous valid one (the default forward limit
direction: pandas fills the first `limit` NaNs of a longer interior run).
The filled value is the linear interpolant between the bounding valid
observations; method='linear' treats values as equally spaced, ignoring the
index. -/
def interpInside (limit : ℕ) (s : List Val) : List Val :=
  (List.range s.length).map (fun i =>
    match s.getD i none with
    | some v => some v
    | none =>
        match prevValid s i, nextValid s i with
        | some jv, some kv =>
            if i - jv.1 ≤ limit then
              some (jv.2 + (kv.2 - jv.2) *
                (((i : ℚ) - (jv.1 : ℚ)) / ((kv.1 : ℚ) - (jv.1 : ℚ))))
            else none
        | _, _ => none)

/-- pandas `Series.bfill(limit=1)` (preprocessor.py line 80): a NaN is filled
from the next valid observation only if that observation is at the very next
position. -/
def bfillLimit1 : List Val → List Val
  | [] => []
  | [x] => [x]
  | x :: y :: rest => x.elim y some :: bfillLimit1 (y :: rest)

/-- preprocessor.py lines 64-69: a numeric column is interpolated iff it is
in neither NO_INTERPOLATE nor FORWARD_FILL_OK and is not the Country_Code /
Year key column. -/
def isInterpolableCol (v : String) : Bool :=
  !(NO_INTERPOLATE.contains v) && !(FORWARD_FILL_OK.contains v) &&
    !(v == "Country_Code") && !(v == "Year")

/-- The fill passes of `smart_imputation` (preprocessor.py lines 48-80) on one
column of one country Series: forward-fill with limit 3 for FORWARD_FILL_OK
columns, linear interior interpolation with limit 2 for interpolable columns,
no fill at all for NO_INTERPOLATE columns, then one backward-fill pass with
limit 1 applied to the forward-filled and interpolated columns only. -/
def smartImputationColumn (v : String) (s : List Val) : List Val :=
  let s1 := if FORWARD_FILL_OK.contains v then ffillLimit 3 s else s
  let s2 := if isInterpolableCol v then interpInside 2 s1 else s1
  if FORWARD_FILL_OK.contains v || isInterpolableCol v then bfillLimit1 s2 else s2

/-- pandas `Series.shift(k)` (preprocessor.py lines 204-205): the value `k`
positions earlier in the Series, absent for the first `k` positions. -/
def shiftVals (k : ℕ) (s : List Val) : List Val :=
  (List.range s.length).map (fun i => if i < k then none else s.getD (i - k) none)

/-- NaN-propagating binary arithmetic on cells: the result is absent as soon
as either operand is absent (IEEE NaN propagation in pandas). -/
def optBin (f : ℚ → ℚ → ℚ) : Val → Val → Val
  | some a, some b => some (f a b)
  | _, _ => none

/-- pandas `Series.diff()` within a group (preprocessor.py line 118 etc.):
value minus previous value, absent at the Series start or when either
operand is absent. -/
def diffVals (s : List Val) : List Val :=
  (List.range s.length).map (fun i =>
    if i = 0 then none
    else optBin (fun a b => a - b) (s.getD i none) (s.getD (i - 1) none))

/-- pandas `Series.pct_change()` within a group (preprocessor.py line 221):
relative change from the previous value.  (Division by zero differs: pandas
produces an infinity where ℚ yields 0; no claim depends on that case.) -/
def pctChangeVals (s : List Val) : List Val :=
  (List.range s.length).map (fun i =>
    if i = 0 then none
    else optBin (fun a b => a / b - 1) (s.getD i none) (s.getD (i - 1) none))

/-- pandas `Series.rolling(W, min_periods=minp).agg` within a group
(preprocessor.py lines 166-178 with W = 3, minp = 2 and the standard
deviation as aggregate `g`): the aggregate of the valid values among the
trailing `W` positions, absent when fewer than `minp` of them are valid. -/
def rollingApply (W minp : ℕ) (g : List ℚ → ℚ) (s : List Val) : List Val :=
  (List.range s.length).map (fun i =>
    let window := (List.range W).filterMap (fun t =>
      if t ≤ i then s.getD (i - t) none else none)
    if minp ≤ window.length then some (g window) else none)

/-! ### The panel, grouped application, and row filtering -/

/-- One column of the panel, grouped by country: each country paired with its
year-ordered Series (at most one entry per country). -/
abbrev Panel := List (String × List Val)

/-- `df.groupby('Country_Code')[col].transform(f)` / grouped `ffill`, `bfill`,
`shift`, `diff`: the per-Series operation `f` is applied to every country's
Series independently. -/
def groupApply (f : List Val → List Val) (p : Panel) : Panel :=
  p.map (fun e => (e.1, f e.2))

/-- The per-Series operations the pipeline applies group-wise (forward-fill
limit 3, interior interpolation limit 2, backward-fill limit 1, lags 1 and 2,
first difference, percent change). -/
def pipelineSeriesOps : List (List Val → List Val) :=
  [ffillLimit 3, interpInside 2, bfillLimit1, shiftVals 1, shiftVals 2,
   diffVals, pctChangeVals]

/-- A row of the panel: a (country, year) observation with a mapping from
variable name to optional value. -/
structure Row where
  country : String
  year : ℤ
  vals : List (String × Val)
deriving DecidableEq

/-- The value of variable `v` on row `r` (absent when the column is absent or
holds NaN). -/
def getVal (r : Row) (v : String) : Val := (List.lookup v r.vals).join

/-- preprocessor.py line 88: the designated outcome variables. -/
def outcome_vars : List String := ["Inflation_CPI_Pct", "GDP_Growth_Pct"]

/-- preprocessor.py line 89: the outcome variables present in the schema. -/
def existingOutcomes (cols : List String) : List String :=
  outcome_vars.filter (fun v => cols.contains v)

/-- preprocessor.py line 93: `df.dropna(subset=existing_outcomes, how='any')`
keeps exactly the rows on which every present outcome variable is
non-missing. -/
def dropMissingOutcomeRows (cols : List String) (rows : List Row) : List Row :=
  rows.filter (fun r => (existingOutcomes cols).all (fun v => (getVal r v).isSome))

/-- preprocessor.py line 94: the reported number of rows dropped for missing
outcomes. -/
def outcomeDroppedCount (cols : List String) (rows : List Row) : ℕ :=
  rows.length - (dropMissingOutcomeRows cols rows).length

/-- preprocessor.py lines 317-345 (`final_cleaning`): drop rows where all
present green variables are missing, then the outlier filters on inflation
(|x| < 500) and GDP growth (between -50 and 50); a pandas comparison with NaN
is False, modelled by `Option.elim false`. -/
def final_cleaning (cols : List String) (rows : List Row) : List Row :=
  let greenIn := GREEN_VARS.filter (fun v => cols.contains v)
  let r1 := if greenIn.isEmpty then rows
    else rows.filter (fun r => greenIn.any (fun v => (getVal r v).isSome))
  let r2 := if cols.contains ("Inflation_CPI_Pct") then
      r1.filter (fun r => (getVal r ("Inflation_CPI_Pct")).elim false
        (fun x => decide (|x| < 500)))
    else r1
  if cols.contains ("GDP_Growth_Pct") then
    r2.filter (fun r => (getVal r ("GDP_Growth_Pct")).elim false
      (fun x => decide (-50 ≤ x ∧ x ≤ 50)))
  else r2

/-- Schema of the concrete TUR 2010/2011 Quality-Gate scenario. -/
def demoCols : List String := ["Country_Code", "Year", "Inflation_CPI_Pct", "GDP_Growth_Pct"]

/-- Scenario row: country TUR, year 2010, outcome (inflation) missing. -/
def rowTUR2010 : Row := ⟨"TUR", 2010, [("Inflation_CPI_Pct", none), ("GDP_Growth_Pct", some 2)]⟩

/-- Scenario row: country TUR, year 2011, all outcomes present. -/
def rowTUR2011 : Row := ⟨"TUR", 2011, [("Inflation_CPI_Pct", some 5), ("GDP_Growth_Pct", some 3)]⟩

/-! ### Derived features (create_derived_features) -/

/-- preprocessor.py lines 137-141: Energy_Vulnerability_Index =
Energy_Imports_Net_Pct * Energy_Intensity_Primary_MJ_Per_GDP / 100, with NaN
propagation. -/
def energyVulnerabilityIndex (imports intensity : Val) : Val :=
  optBin (fun a b => a * b / 100) imports intensity

/-- preprocessor.py line 187: CA_Deficit_Dummy =
(Current_Account_Balance_Pct_GDP < -3).astype(int).  The pandas comparison
maps NaN to False, so the dummy is always present (0 or 1). -/
def caDeficitDummy (x : Val) : Val :=
  some (if x.elim false (fun v => decide (v < -3)) then 1 else 0)

/-- A year-tagged country Series: (year, value) pairs ordered by year. -/
abbrev YearSeries := List (ℤ × Val)

/-- The lag-k column on a year-tagged Series (preprocessor.py lines 204-205):
pandas `shift(k)` is position-based, the years stay attached to the rows. -/
def shiftSeries (k : ℕ) (s : YearSeries) : YearSeries :=
  (List.range s.length).map (fun i =>
    ((s.getD i (0, none)).1, if i < k then none else (s.getD (i - k) (0, none)).2))

/-- The value of the Series at a given year (absent if the Series has no row
for that year, or the row holds NaN). -/
def valueAtYear (s : YearSeries) (y : ℤ) : Val := (List.lookup y s).join

/-- The lag-k feature read off at a given year. -/
def lagAtYear (k : ℕ) (s : YearSeries) (y : ℤ) : Val :=
  (List.lookup y (shiftSeries k s)).join

/-! ### Period bucketing (preprocessor.py lines 229-234) -/

/-- pandas `pd.cut(year, bins, labels)` with right-closed intervals: the label
of the first interval (lo, hi] containing the year, absent (NaN) when the
year falls outside every interval. -/
def pdCutAt : List ℤ → List String → ℤ → Option String
  | b1 :: b2 :: bs, l :: ls, y =>
      if b1 < y ∧ y ≤ b2 then some l else pdCutAt (b2 :: bs) ls y
  | _, _, _ => none

/-- preprocessor.py line 231: the bin edges of the Period column. -/
def periodBins : List ℤ := [1999, 2007, 2009, 2019, 2021, 2024]

/-- preprocessor.py line 232: the Period labels. -/
def periodLabelsList : List String :=
  ["Pre_Crisis", "Financial_Crisis", "Recovery_Green", "Pandemic", "Energy_Crisis"]

/-- The Period label of a year (preprocessor.py lines 229-234). -/
def periodOf (y : ℤ) : Option String := pdCutAt periodBins periodLabelsList y

/-- The Period column over a panel: every row is kept and tagged with its
(possibly absent) label; no row aborts the pipeline. -/
def assignPeriods (rows : List Row) : List (Row × Option String) :=
  rows.map (fun r => (r, periodOf r.year))

/-! ## Helper lemmas -/

/-- Reading a position of a map over `List.range`. -/
theorem getD_map_range {α : Type} (n : ℕ) (f : ℕ → α) (i : ℕ) (h : i < n) (d : α) :
    ((List.range n).map f).getD i d = f i := by
  rw [List.getD_eq_getElem?_getD, List.getElem?_map, List.getElem?_range h]
  rfl

/-- Looking up a key of a graph-style association list built by pairing. -/
theorem lookup_map_pair (f : String → String) :
    ∀ (l : List String) (c : String), c ∈ l →
      List.lookup c (l.map (fun x => (x, f x))) = some (f c) := by
  intro l
  induction l with
  | nil => intro c hc; cases hc
  | cons a t ih =>
      intro c hc
      by_cases h : c = a
      · subst h; simp [List.lookup]
      · have ht : c ∈ t := by
          rcases List.mem_cons.mp hc with h1 | h2
          · exact absurd h1 h
          · exact h2
        have hba : (c == a) = false := beq_eq_false_iff_ne.mpr h
        simpa [List.lookup, hba] using ih c ht

/-! ## C1: volatile variables are never imputed -/

/-- C1: for every volatile-class variable (NO_INTERPOLATE list) and every
country Series, the fill passes of smart_imputation — forward-fill,
interpolation, and the trailing backward-fill — leave the column exactly as
it was: missing stays missing, present values are unchanged. -/
theorem C1_volatile_identity :
    ∀ (v : String) (s : List Val), v ∈ NO_INTERPOLATE → smartImputationColumn v s = s := by
  intro v s hv
  fin_cases hv <;> rfl

/-- C1 witness: the identity at the volatile column GDP_Growth_Pct on a
concrete Series with both missing and present cells. -/
theorem C1_volatile_identity_witness :
    ("GDP_Growth_Pct") ∈ NO_INTERPOLATE ∧
      smartImputationColumn ("GDP_Growth_Pct") [none, some 7, none] = [none, some 7, none] :=
  ⟨by decide, C1_volatile_identity ("GDP_Growth_Pct") [none, some 7, none] (by decide)⟩

/-! ## C3: forward-fill with limit 3 -/

/-- Inside a run of missing cells that directly follows the last valid value
`v`, the fill survives exactly while the run length stays within the limit. -/
theorem ffillGo_run (n : ℕ) (v : ℚ) :
    ∀ (rest : List Val) (g m : ℕ),
      (∀ l, l ≤ m → rest.getD l none = none) → m < rest.length →
      (ffillGo n (some v) g rest).getD m none = if g + m + 1 ≤ n then some v else none := by
  intro rest
  induction rest with
  | nil => intro g m h hm; simp at hm
  | cons x t ih =>
      intro g m h hm
      have hx : x = none := by simpa using h 0 (Nat.zero_le m)
      subst hx
      cases m with
      | zero => simp [ffillGo]
      | succ m =>
          have h2 : ∀ l, l ≤ m → t.getD l none = none := fun l hl => by
            simpa using h (l + 1) (Nat.succ_le_succ hl)
          have hm2 : m < t.length := by simpa using hm
          simp only [ffillGo, List.getD_cons_succ]
          rw [ih (g + 1) m h2 hm2]
          have e : g + 1 + m + 1 = g + (m + 1) + 1 := by omega
          rw [e]

/-- Pointwise behaviour of the forward-fill pass at a missing position: if
the nearest valid value before position `i` sits at position `j`, the cell is
filled with it exactly when `i - j ≤ n`, whatever the initial state. -/
theorem ffillGo_char (n : ℕ) (v : ℚ) :
    ∀ (s : List Val) (last : Val) (g : ℕ) (i j : ℕ),
      j < i → i < s.length → s.getD j none = some v →
      (∀ l, j < l → l < i → s.getD l none = none) → s.getD i none = none →
      (ffillGo n last g s).getD i none = if i - j ≤ n then some v else none := by
  intro s
  induction s with
  | nil => intro last g i j hji hil; simp at hil
  | cons x t ih =>
      intro last g i j hji hil hj hb hi
      obtain ⟨m, rfl⟩ : ∃ m, i = m + 1 := ⟨i - 1, by omega⟩
      cases j with
      | zero =>
          have hx : x = some v := by simpa using hj
          subst hx
          simp only [ffillGo, List.getD_cons_succ]
          have hrun : ∀ l, l ≤ m → t.getD l none = none := by
            intro l hl
            rcases Nat.lt_or_ge l m with h1 | h1
            · simpa using hb (l + 1) (by omega) (by omega)
            · have hlm : l = m := by omega
              subst hlm
              simpa using hi
          have hm : m < t.length := by simpa using hil
          rw [ffillGo_run n v t 0 m hrun hm]
          have e : 0 + m + 1 = m + 1 - 0 := by omega
          rw [e]
      | succ j =>
          have hj2 : t.getD j none = some v := by simpa using hj
          have hb2 : ∀ l, j < l → l < m → t.getD l none = none := by
            intro l h1 h2
            simpa using hb (l + 1) (by omega) (by omega)
          have hi2 : t.getD m none = none := by simpa using hi
          have hil2 : m < t.length := by simpa using hil
          have hji2 : j < m := by omega
          have e : m - j = m + 1 - (j + 1) := by omega
          cases x with
          | some w =>
              simp only [ffillGo, List.getD_cons_succ]
              rw [ih (some w) 0 m j hji2 hil2 hj2 hb2 hi2, e]
          | none =>
              simp only [ffillGo, List.getD_cons_succ]
              rw [ih last (g + 1) m j hji2 hil2 hj2 hb2 hi2, e]

/-- C3 counterexample: a Series with an interior gap of 5 consecutive missing
years.  The claim says a gap longer than 3 remains entirely missing, but
pandas `ffill(limit=3)` fills the first 3 missing years of the gap (positions
1-3) with the last known value and leaves only positions 4-5 missing. -/
theorem C3_forward_fill_counterexample :
    ffillLimit 3 [some 1, none, none, none, none, none, some 8] =
      [some 1, some 1, some 1, some 1, none, none, some 8] := by
  decide

/-- C3 amended: forward-fill with limit 3 fills a missing year if and only if
it lies at distance at most 3 after the nearest preceding known value; in a
longer gap the first 3 missing years are filled and the rest remain missing,
so a filled value can originate from a gap longer than the limit. -/
theorem C3_forward_fill_bounded (s : List Val) (i j : ℕ) (v : ℚ)
    (hji : j < i) (hil : i < s.length)
    (hj : s.getD j none = some v)
    (hb : ∀ l, j < l → l < i → s.getD l none = none)
    (hi : s.getD i none = none) :
    (ffillLimit 3 s).getD i none = if i - j ≤ 3 then some v else none :=
  ffillGo_char 3 v s none 0 i j hji hil hj hb hi

/-- C3 witness: on a Series whose only valid value before position 4 is at
position 0, the cell at distance 4 stays missing. -/
theorem C3_forward_fill_bounded_witness :
    (ffillLimit 3 [some 2, none, none, none, none, some 9]).getD 4 none = none := by
  have h := C3_forward_fill_bounded [some 2, none, none, none, none, some 9] 4 0 2
    (by omega) (by decide) (by decide)
    (by intro l h1 h2; interval_cases l <;> rfl) (by decide)
  rw [h]
  decide

/-! ## C4: the backward-fill pass -/

/-- Pointwise behaviour of pandas `bfill(limit=1)`: a present cell is kept, a
missing cell receives whatever stands at the very next position (in
particular it stays missing when the next position is also missing or does
not exist). -/
theorem bfillLimit1_getD :
    ∀ (s : List Val) (i : ℕ), i < s.length →
      (bfillLimit1 s).getD i none = (s.getD i none).elim (s.getD (i + 1) none) some := by
  intro s
  induction s with
  | nil => intro i hi; simp at hi
  | cons x t ih =>
      intro i hi
      cases t with
      | nil =>
          cases i with
          | zero => cases x <;> simp [bfillLimit1]
          | succ i => simp at hi
      | cons y u =>
          cases i with
          | zero => cases x <;> rfl
          | succ i =>
              have hi2 : i < (y :: u).length := by simpa using hi
              simp only [bfillLimit1, List.getD_cons_succ]
              exact ih i hi2

/-- C4 counterexample: for the interpolable column
Renewable_Electricity_Output_Pct with Series [1, NaN, NaN, NaN, 5], the
interpolation pass leaves position 3 missing (limit 2), the leading value is
present, yet the trailing backward-fill pass fills position 3 from its
successor — a missing value that is not the Series' leading cell is changed
by the pass, contradicting the claim. -/
theorem C4_backfill_counterexample :
    smartImputationColumn ("Renewable_Electricity_Output_Pct")
        [some 1, none, none, none, some 5] = [some 1, some 2, some 3, some 5, some 5] ∧
      interpInside 2 [some 1, none, none, none, some 5] =
        [some 1, some 2, some 3, none, some 5] := by
  have h3 : interpInside 2 [some 1, none, none, none, some 5] =
      [some 1, some 2, some 3, none, some 5] := by
    norm_num [interpInside, prevValid, nextValid, nextValidGo, List.range_succ]
  refine ⟨?_, h3⟩
  have e1 : smartImputationColumn ("Renewable_Electricity_Output_Pct")
      [some 1, none, none, none, some 5] =
      bfillLimit1 (interpInside 2 [some 1, none, none, none, some 5]) := rfl
  rw [e1, h3]
  rfl

/-- C4 amended: the single backward-fill pass with limit 1 replaces every
missing cell whose immediate successor is present by that successor's value
and changes nothing else; this patches a leading missing value when the first
known value is at position 2, but it equally fills the last missing slot of
any gap still left after forward-fill and interpolation. -/
theorem C4_backfill_pass_characterised :
    (∀ (s : List Val) (i : ℕ), i < s.length →
       (bfillLimit1 s).getD i none = (s.getD i none).elim (s.getD (i + 1) none) some) ∧
      bfillLimit1 [none, some 3, none, none] = [some 3, some 3, none, none] :=
  ⟨bfillLimit1_getD, by decide⟩

/-- C4 witness: the pass at work on a Series whose first known value is at
position 2, patching the leading missing cell. -/
theorem C4_backfill_pass_characterised_witness :
    (bfillLimit1 [none, some 3]).getD 0 none = some 3 := by
  have h := C4_backfill_pass_characterised.1 [none, some 3] 0 (by decide)
  rw [h]
  decide

/-! ## C2: interior linear interpolation with limit 2 -/

/-- `prevValid` finds the nearest valid observation before `i`. -/
theorem prevValid_eq (s : List Val) (j : ℕ) (vj : ℚ) :
    ∀ i, j < i → s.getD j none = some vj →
      (∀ l, j < l → l < i → s.getD l none = none) → prevValid s i = some (j, vj) := by
  intro i
  induction i with
  | zero => intro h; omega
  | succ i ih =>
      intro hji hj hb
      by_cases h : j = i
      · subst h
        simp only [prevValid]
        rw [hj]
      · have hji2 : j < i := by omega
        have hi : s.getD i none = none := hb i hji2 (by omega)
        simp only [prevValid, hi]
        exact ih hji2 hj (fun l h1 h2 => hb l h1 (by omega))

/-- `prevValid` is empty when everything before `i` is missing. -/
theorem prevValid_none (s : List Val) :
    ∀ i, (∀ l, l < i → s.getD l none = none) → prevValid s i = none := by
  intro i
  induction i with
  | zero => intro h; rfl
  | succ i ih =>
      intro h
      have hi : s.getD i none = none := h i (by omega)
      simp only [prevValid, hi]
      exact ih (fun l hl => h l (by omega))

/-- The fuelled search finds the nearest valid observation at or after `m`. -/
theorem nextValidGo_eq (s : List Val) (k : ℕ) (vk : ℚ) (hk : s.getD k none = some vk) :
    ∀ (fuel m : ℕ), m ≤ k → k - m < fuel →
      (∀ l, m ≤ l → l < k → s.getD l none = none) → nextValidGo s m fuel = some (k, vk) := by
  intro fuel
  induction fuel with
  | zero => intro m h1 h2; omega
  | succ fuel ih =>
      intro m hm hf hb
      by_cases h : m = k
      · subst h
        simp only [nextValidGo]
        rw [hk]
      · have hmk : m < k := by omega
        have hmn : s.getD m none = none := hb m le_rfl hmk
        simp only [nextValidGo, hmn]
        exact ih (m + 1) (by omega) (by omega) (fun l h1 h2 => hb l (by omega) h2)

/-- The fuelled search yields nothing when everything at or after `m` is
missing. -/
theorem nextValidGo_none (s : List Val) :
    ∀ (fuel m : ℕ), (∀ l, m ≤ l → s.getD l none = none) → nextValidGo s m fuel = none := by
  intro fuel
  induction fuel with
  | zero => intro m h; rfl
  | succ fuel ih =>
      intro m h
      simp only [nextValidGo, h m le_rfl]
      exact ih (m + 1) (fun l hl => h l (by omega))

/-- `nextValid` finds the nearest valid observation after `i`. -/
theorem nextValid_eq (s : List Val) (i k : ℕ) (vk : ℚ) (hik : i < k) (hkl : k < s.length)
    (hk : s.getD k none = some vk)
    (hb : ∀ l, i < l → l < k → s.getD l none = none) :
    nextValid s i = some (k, vk) :=
  nextValidGo_eq s k vk hk (s.length - (i + 1)) (i + 1) (by omega) (by omega)
    (fun l h1 h2 => hb l (by omega) h2)

/-- `nextValid` is empty when everything after `i` is missing. -/
theorem nextValid_none (s : List Val) (i : ℕ)
    (h : ∀ l, i < l → l < s.length → s.getD l none = none) : nextValid s i = none :=
  nextValidGo_none s _ (i + 1) (fun l hl => by
    rcases Nat.lt_or_ge l s.length with h1 | h1
    · exact h l (by omega) h1
    · exact List.getD_eq_default s none h1)

/-- Reading one position of the interpolation pass. -/
theorem interpInside_getD (limit : ℕ) (s : List Val) (i : ℕ) (h : i < s.length) :
    (interpInside limit s).getD i none =
      match s.getD i none with
      | some v => some v
      | none =>
          match prevValid s i, nextValid s i with
          | some jv, some kv =>
              if i - jv.1 ≤ limit then
                some (jv.2 + (kv.2 - jv.2) *
                  (((i : ℚ) - (jv.1 : ℚ)) / ((kv.1 : ℚ) - (jv.1 : ℚ))))
              else none
          | _, _ => none :=
  getD_map_range s.length _ i h none

/-- C2 counterexample: an interior gap of length 3 with gap limit 2.  The
claim says such a gap is never interpolated, but pandas
`interpolate(limit=2, limit_area='inside')` fills its first two positions
(with the linear interpolant computed from both bounding values) and leaves
only the third missing. -/
theorem C2_interpolation_counterexample :
    interpInside 2 [some 1, none, none, none, some 5] =
      [some 1, some 2, some 3, none, some 5] := by
  norm_num [interpInside, prevValid, nextValid, nextValidGo, List.range_succ]

/-- C2 amended: a missing position of a Series is interpolated iff it is
interior (valid observations exist on both sides) and lies within 2
positions after the nearest preceding valid observation; the filled value is
the linear interpolant between the two bounding observations.  So interior
gaps of length at most 2 are filled completely, longer interior gaps are
filled only at their first 2 positions, and gaps touching either end of the
Series are never filled — in particular the 2000-2004 scenario
[1, absent, absent, 4, absent] becomes [1, 2, 3, 4, absent]. -/
theorem C2_interpolation_characterised :
    (∀ (s : List Val) (i j k : ℕ) (vj vk : ℚ),
        j < i → i < k → k < s.length →
        s.getD j none = some vj → s.getD k none = some vk →
        (∀ l, j < l → l < k → s.getD l none = none) →
        (interpInside 2 s).getD i none =
          if i - j ≤ 2 then
            some (vj + (vk - vj) * (((i : ℚ) - (j : ℚ)) / ((k : ℚ) - (j : ℚ))))
          else none) ∧
      (∀ (s : List Val) (i : ℕ), i < s.length → s.getD i none = none →
        (∀ l, l < i → s.getD l none = none) →
        (interpInside 2 s).getD i none = none) ∧
      (∀ (s : List Val) (i : ℕ), i < s.length → s.getD i none = none →
        (∀ l, i < l → l < s.length → s.getD l none = none) →
        (interpInside 2 s).getD i none = none) ∧
      interpInside 2 [some 1, none, none, some 4, none] =
        [some 1, some 2, some 3, some 4, none] := by
  refine ⟨?_, ?_, ?_, ?_⟩
  · intro s i j k vj vk hji hik hkl hj hk hb
    have hi : s.getD i none = none := hb i hji hik
    rw [interpInside_getD 2 s i (by omega), hi,
      prevValid_eq s j vj i hji hj (fun l h1 h2 => hb l h1 (by omega)),
      nextValid_eq s i k vk hik hkl hk (fun l h1 h2 => hb l (by omega) h2)]
  · intro s i hil hi hb
    rw [interpInside_getD 2 s i hil, hi, prevValid_none s i hb]
  · intro s i hil hi hb
    rw [interpInside_getD 2 s i hil, hi, nextValid_none s i hb]
    cases prevValid s i <;> rfl
  · norm_num [interpInside, prevValid, nextValid, nextValidGo, List.range_succ]

/-- C2 witness: the interior position 1 of the scenario Series, at distance 1
from the left bounding value, is filled with the linear interpolant 2. -/
theorem C2_interpolation_characterised_witness :
    (interpInside 2 [some 1, none, none, some 4, none]).getD 1 none = some 2 := by
  have h := C2_interpolation_characterised.1 [some 1, none, none, some 4, none] 1 0 3 1 4
    (by omega) (by omega) (by decide) (by rfl) (by rfl)
    (by intro l h1 h2; interval_cases l <;> rfl)
  rw [h]
  norm_num

/-! ## C5: no cross-Series leakage -/

/-- Group-wise application reads only the looked-up country's own Series. -/
theorem lookup_groupApply (f : List Val → List Val) :
    ∀ (p : Panel) (B : String),
      List.lookup B (groupApply f p) = (List.lookup B p).map f := by
  intro p
  induction p with
  | nil => intro B; rfl
  | cons e t ih =>
      intro B
      obtain ⟨c, s⟩ := e
      by_cases h : B = c
      · subst h
        simp [groupApply, List.lookup]
      · have hb : (B == c) = false := beq_eq_false_iff_ne.mpr h
        simpa [groupApply, List.lookup, hb] using ih B

/-- C5: no cross-Series leakage.  For every group-wise pipeline operation
(forward-fill, interpolation, backward-fill, lags 1 and 2, diff, percent
change, and any rolling window-3 min-periods-2 statistic), if two panels
agree on country B's Series then the operation's output on B is identical —
perturbing or removing any other country never changes B's values. -/
theorem C5_no_cross_series_leakage :
    (∀ f, f ∈ pipelineSeriesOps → ∀ (p q : Panel) (B : String),
        List.lookup B p = List.lookup B q →
        List.lookup B (groupApply f p) = List.lookup B (groupApply f q)) ∧
      (∀ (g : List ℚ → ℚ) (p q : Panel) (B : String),
        List.lookup B p = List.lookup B q →
        List.lookup B (groupApply (rollingApply 3 2 g) p) =
          List.lookup B (groupApply (rollingApply 3 2 g) q)) := by
  constructor
  · intro f _ p q B h
    rw [lookup_groupApply f p B, lookup_groupApply f q B, h]
  · intro g p q B h
    rw [lookup_groupApply _ p B, lookup_groupApply _ q B, h]

/-- C5 witness: perturbing country AAA's Series leaves the backward-fill
output for country BBB unchanged. -/
theorem C5_no_cross_series_leakage_witness :
    List.lookup ("BBB") (groupApply bfillLimit1
        [(("AAA"), [some 1, none]), (("BBB"), [none, some 2])]) =
      List.lookup ("BBB") (groupApply bfillLimit1
        [(("AAA"), [some 9, some 9, some 9]), (("BBB"), [none, some 2])]) :=
  C5_no_cross_series_leakage.1 bfillLimit1 (by simp [pipelineSeriesOps])
    [(("AAA"), [some 1, none]), (("BBB"), [none, some 2])]
    [(("AAA"), [some 9, some 9, some 9]), (("BBB"), [none, some 2])]
    ("BBB") (by decide)

/-! ## C6: the outcome-variable Quality Gate -/

/-- C6: the drop stage at the end of smart_imputation keeps exactly the rows
on which every outcome variable present in the schema is non-missing; the
later final_cleaning stage only filters rows (so outcome completeness
persists into the final panel); and on the concrete TUR scenario (2010
outcome missing, 2011 outcome present) exactly the 2010 row is removed and
the reported drop count is 1. -/
theorem C6_outcome_row_drop :
    (∀ (cols : List String) (rows : List Row) (r : Row),
        r ∈ dropMissingOutcomeRows cols rows ↔
          r ∈ rows ∧ ∀ v ∈ existingOutcomes cols, (getVal r v).isSome = true) ∧
      (∀ (cols : List String) (rows : List Row) (r : Row),
        r ∈ final_cleaning cols rows → r ∈ rows) ∧
      dropMissingOutcomeRows demoCols [rowTUR2010, rowTUR2011] = [rowTUR2011] ∧
      outcomeDroppedCount demoCols [rowTUR2010, rowTUR2011] = 1 := by
  refine ⟨?_, ?_, by decide, by decide⟩
  · intro cols rows r
    simp [dropMissingOutcomeRows, List.mem_filter, List.all_eq_true]
  · intro cols rows r h
    have sub : ∀ (p : Row → Bool) (l : List Row), r ∈ l.filter p → r ∈ l :=
      fun p l hm => (List.mem_filter.mp hm).1
    simp only [final_cleaning] at h
    split_ifs at h <;>
      first
        | exact h
        | exact sub _ _ h
        | exact sub _ _ (sub _ _ h)
        | exact sub _ _ (sub _ _ (sub _ _ h))

/-- C6 witness: the outcome-complete 2011 row survives the drop stage. -/
theorem C6_outcome_row_drop_witness :
    rowTUR2011 ∈ dropMissingOutcomeRows demoCols [rowTUR2010, rowTUR2011] :=
  (C6_outcome_row_drop.1 demoCols [rowTUR2010, rowTUR2011] rowTUR2011).mpr (by decide)

/-! ## C7: missingness propagation in derived features -/

/-- C7 counterexample: CA_Deficit_Dummy on a row whose
Current_Account_Balance_Pct_GDP is absent.  The pandas comparison NaN < -3 is
False and astype(int) makes it 0, so the derived value is the present number
0, not an absent value as the claim requires. -/
theorem C7_missingness_counterexample : caDeficitDummy none = some 0 := rfl

/-- C7 amended: the arithmetic derivations (differences, products such as
Energy_Vulnerability_Index, ratios) propagate missingness — an absent operand
yields an absent output — but the threshold dummy CA_Deficit_Dummy is total:
it yields a present 0/1 value even when its input is absent. -/
theorem C7_missingness_propagation :
    (∀ (f : ℚ → ℚ → ℚ) (b : Val), optBin f none b = none) ∧
      (∀ (f : ℚ → ℚ → ℚ) (a : Val), optBin f a none = none) ∧
      (∀ (a b : ℚ), energyVulnerabilityIndex (some a) (some b) = some (a * b / 100)) ∧
      (∀ (s : List Val) (i : ℕ), i < s.length → s.getD i none = none →
        (diffVals s).getD i none = none) ∧
      (∀ x : Val, (caDeficitDummy x).isSome = true) := by
  refine ⟨fun f b => rfl, ?_, fun a b => rfl, ?_, fun x => rfl⟩
  · intro f a
    cases a <;> rfl
  · intro s i hi hnone
    simp only [diffVals]
    rw [getD_map_range s.length _ i hi none]
    by_cases h : i = 0
    · simp [h]
    · rw [if_neg h, hnone]
      cases s.getD (i - 1) none <;> rfl

/-- C7 witness: an absent first operand makes Energy_Vulnerability_Index
absent, and a missing cell has a missing first difference. -/
theorem C7_missingness_propagation_witness :
    energyVulnerabilityIndex none (some 3) = none ∧
      (diffVals [some 1, none, some 4]).getD 1 none = none :=
  ⟨C7_missingness_propagation.1 (fun a b => a * b / 100) (some 3),
    C7_missingness_propagation.2.2.2.1 [some 1, none, some 4] 1 (by decide) (by rfl)⟩

/-! ## C8: period bucketing by year -/

/-- C8 counterexample: a year outside all configured ranges (1999 is outside
the right-closed bins of pd.cut, as is 2025).  The claim says this must be a
fatal configuration error aborting the pipeline, but the code silently
assigns an absent label and keeps the row: assignPeriods processes the row
and tags it with none. -/
theorem C8_out_of_range_counterexample :
    periodOf 1999 = none ∧ periodOf 2025 = none ∧
      assignPeriods [⟨"TUR", 1999, []⟩] = [(⟨"TUR", 1999, []⟩, none)] :=
  ⟨rfl, rfl, rfl⟩

/-- C8 amended: every year in (1999, 2024] — in particular the whole
configured span 2000-2023 — receives exactly one period label, determined by
the non-overlapping right-closed ranges of pd.cut; a year at or before 1999,
or after 2024, silently receives an absent label (no error is raised, the
pipeline continues). -/
theorem C8_period_labels :
    ∀ y : ℤ,
      (1999 < y → y ≤ 2007 → periodOf y = some ("Pre_Crisis")) ∧
      (2007 < y → y ≤ 2009 → periodOf y = some ("Financial_Crisis")) ∧
      (2009 < y → y ≤ 2019 → periodOf y = some ("Recovery_Green")) ∧
      (2019 < y → y ≤ 2021 → periodOf y = some ("Pandemic")) ∧
      (2021 < y → y ≤ 2024 → periodOf y = some ("Energy_Crisis")) ∧
      (y ≤ 1999 → periodOf y = none) ∧
      (2024 < y → periodOf y = none) := by
  intro y
  refine ⟨fun h1 h2 => ?_, fun h1 h2 => ?_, fun h1 h2 => ?_, fun h1 h2 => ?_,
    fun h1 h2 => ?_, fun h1 => ?_, fun h1 => ?_⟩ <;>
    · simp only [periodOf, periodBins, periodLabelsList, pdCutAt]
      split_ifs <;> first | rfl | omega

/-- C8 witness: year 2005 of the configured span gets the Pre_Crisis label. -/
theorem C8_period_labels_witness : periodOf 2005 = some ("Pre_Crisis") :=
  (C8_period_labels 2005).1 (by decide) (by decide)

/-! ## C9: lag features -/

/-- The lag column has one entry per row of the Series. -/
theorem shiftSeries_length (k : ℕ) (s : YearSeries) :
    (shiftSeries k s).length = s.length := by
  simp [shiftSeries]

/-- Reading one position of the lag column. -/
theorem shiftSeries_getD (k : ℕ) (s : YearSeries) (i : ℕ) (h : i < s.length) :
    (shiftSeries k s).getD i (0, none) =
      ((s.getD i (0, none)).1, if i < k then none else (s.getD (i - k) (0, none)).2) := by
  simp only [shiftSeries]
  exact getD_map_range s.length _ i h (0, none)

/-- In a Series whose years are consecutive from `y0`, looking a year up
lands on the corresponding position. -/
theorem lookup_of_consecutive :
    ∀ (s : YearSeries) (y0 : ℤ) (i : ℕ),
      (∀ t, t < s.length → (s.getD t (0, none)).1 = y0 + t) → i < s.length →
      List.lookup (y0 + i) s = some ((s.getD i (0, none)).2) := by
  intro s
  induction s with
  | nil => intro y0 i hy hi; simp at hi
  | cons e t ih =>
      intro y0 i hy hi
      obtain ⟨y, v⟩ := e
      have hy0 : y = y0 := by simpa using hy 0 (by simp)
      subst hy0
      cases i with
      | zero => simp [List.lookup]
      | succ i =>
          have hne : ((y + ((i + 1 : ℕ) : ℤ)) == y) = false := by
            rw [beq_eq_false_iff_ne]
            intro hcontra
            omega
          have hy2 : ∀ t2, t2 < t.length → (t.getD t2 (0, none)).1 = (y + 1) + t2 := by
            intro t2 ht2
            have h3 := hy (t2 + 1) (by simpa using Nat.succ_lt_succ ht2)
            rw [List.getD_cons_succ] at h3
            rw [h3]
            push_cast
            ring
          have hi2 : i < t.length := by simpa using hi
          have h4 := ih (y + 1) i hy2 hi2
          simp only [List.lookup, hne, List.getD_cons_succ]
          rw [show (y + ((i + 1 : ℕ) : ℤ)) = (y + 1) + (i : ℕ) by push_cast; ring]
          exact h4

/-- C9 counterexample: a Series whose year-2001 row was dropped (country with
rows for 2000 and 2002 only).  pandas shift(1) is position-based, so the lag-1
feature at year 2002 holds the year-2000 value, while the claim demands the
value at year 2001 — which is absent from the Series. -/
theorem C9_lag_counterexample :
    lagAtYear 1 [((2000 : ℤ), some 1), ((2002 : ℤ), some 5)] 2002 = some 1 ∧
      valueAtYear [((2000 : ℤ), some 1), ((2002 : ℤ), some 5)] (2002 - 1) = none :=
  ⟨rfl, rfl⟩

/-- C9 amended: the lag-k feature at series position i is absent for i < k
and equals the value at position i − k (the k-th preceding row of the same
country) otherwise; when the Series' years are consecutive, reading the lag
at year y0 + i therefore gives exactly the value at year y0 + i − k, and the
first k years have an absent lag. -/
theorem C9_lag_positional :
    (∀ (k i : ℕ) (s : YearSeries), i < s.length → i < k →
        ((shiftSeries k s).getD i (0, none)).2 = none) ∧
      (∀ (k i : ℕ) (s : YearSeries), i < s.length → k ≤ i →
        ((shiftSeries k s).getD i (0, none)).2 = (s.getD (i - k) (0, none)).2) ∧
      (∀ (k i : ℕ) (s : YearSeries) (y0 : ℤ),
        (∀ t, t < s.length → (s.getD t (0, none)).1 = y0 + t) → k ≤ i → i < s.length →
        lagAtYear k s (y0 + i) = valueAtYear s (y0 + ((i - k : ℕ) : ℤ))) ∧
      (∀ (k i : ℕ) (s : YearSeries) (y0 : ℤ),
        (∀ t, t < s.length → (s.getD t (0, none)).1 = y0 + t) → i < k → i < s.length →
        lagAtYear k s (y0 + i) = none) := by
  have h1 : ∀ (k i : ℕ) (s : YearSeries), i < s.length → i < k →
      ((shiftSeries k s).getD i (0, none)).2 = none := by
    intro k i s hi hik
    rw [shiftSeries_getD k s i hi]
    simp [hik]
  have h2 : ∀ (k i : ℕ) (s : YearSeries), i < s.length → k ≤ i →
      ((shiftSeries k s).getD i (0, none)).2 = (s.getD (i - k) (0, none)).2 := by
    intro k i s hi hk
    rw [shiftSeries_getD k s i hi]
    simp [Nat.not_lt.mpr hk]
  have hyears : ∀ (k : ℕ) (s : YearSeries) (y0 : ℤ),
      (∀ t, t < s.length → (s.getD t (0, none)).1 = y0 + t) →
      ∀ t, t < (shiftSeries k s).length → ((shiftSeries k s).getD t (0, none)).1 = y0 + t := by
    intro k s y0 hy t ht
    rw [shiftSeries_length] at ht
    rw [shiftSeries_getD k s t ht]
    exact hy t ht
  refine ⟨h1, h2, ?_, ?_⟩
  · intro k i s y0 hy hk hi
    simp only [lagAtYear, valueAtYear]
    rw [lookup_of_consecutive (shiftSeries k s) y0 i (hyears k s y0 hy)
        (by rw [shiftSeries_length]; exact hi),
      lookup_of_consecutive s y0 (i - k) hy (by omega)]
    rw [h2 k i s hi hk]
  · intro k i s y0 hy hik hi
    simp only [lagAtYear]
    rw [lookup_of_consecutive (shiftSeries k s) y0 i (hyears k s y0 hy)
        (by rw [shiftSeries_length]; exact hi)]
    rw [h1 k i s hi hik]
    rfl

/-- C9 witness: on a consecutive-year Series 2000-2002, the lag-1 feature at
year 2002 equals the Series value at year 2001. -/
theorem C9_lag_positional_witness :
    lagAtYear 1 [((2000 : ℤ), some 1), ((2001 : ℤ), some 2), ((2002 : ℤ), some 5)] 2002 =
      valueAtYear [((2000 : ℤ), some 1), ((2001 : ℤ), some 2), ((2002 : ℤ), some 5)] 2001 := by
  have h := C9_lag_positional.2.2.1 1 2
    [((2000 : ℤ), some 1), ((2001 : ℤ), some 2), ((2002 : ℤ), some 5)] 2000
    (by intro t ht
        have ht3 : t < 3 := by simpa using ht
        interval_cases t <;> norm_num [List.getD])
    (by omega) (by decide)
  norm_num at h
  exact h

/-! ## C10: the country-to-group mapping -/

/-- C10: the country-to-analytical-group mapping is total and deterministic
with first-match precedence.  Every country of ALL_COUNTRIES has exactly one
entry in COUNTRY_GROUPS (the keys are nodup, and lookup returns the label
computed by the if/elif chain of config.py in the order Turkey_Focus,
Green_Leaders, Fast_Growing, Energy_Dependent, Turkey_Peers, Southern_Europe,
Asian_Emerging, Other_Advanced).  NOR, in both GREEN_LEADERS and
ENERGY_DEPENDENT, gets Green_Leaders; THA, in both TURKEY_PEERS_EMERGING and
ASIAN_EMERGING, gets Turkey_Peers. -/
theorem C10_country_groups :
    (∀ c, c ∈ ALL_COUNTRIES → List.lookup c COUNTRY_GROUPS = some (countryGroup c)) ∧
      (COUNTRY_GROUPS.map Prod.fst).Nodup ∧
      countryGroup ("NOR") = "Green_Leaders" ∧
      ("NOR") ∈ GREEN_LEADERS ∧ ("NOR") ∈ ENERGY_DEPENDENT ∧
      countryGroup ("THA") = "Turkey_Peers" ∧
      ("THA") ∈ TURKEY_PEERS_EMERGING ∧ ("THA") ∈ ASIAN_EMERGING := by
  refine ⟨fun c hc => lookup_map_pair countryGroup ALL_COUNTRIES c hc, ?_,
    by decide, by decide, by decide, by decide, by decide, by decide⟩
  have h1 : COUNTRY_GROUPS.map Prod.fst = ALL_COUNTRIES := by
    simp only [COUNTRY_GROUPS, List.map_map]
    exact List.map_id ALL_COUNTRIES
  rw [h1]
  exact List.nodup_dedup _

/-- C10 witness: the lookup at the doubly-listed country THA yields the
earlier group, Turkey_Peers. -/
theorem C10_country_groups_witness :
    List.lookup ("THA") COUNTRY_GROUPS = some ("Turkey_Peers") := by
  have h := C10_country_groups.1 ("THA") (by decide)
  rw [h]
  decide

end GreenTrap
